import Mathlib

/-!
Verification of the habit-tracking completion-cache and streak engine.

The embedding models the React hook that owns the in-memory habit cache.
Calendar dates (stored in the source as ISO "YYYY-MM-DD" strings, on which
lexicographic string order coincides with chronological order) are embedded
as integer day numbers; the millisecond difference divided by a day that the
source computes between two midnight-normalized dates is then exactly integer
subtraction.  The remote database client is an external collaborator: the
handlers are embedded as functions of the outcome of the awaited remote call,
and the awaited round trip together with the state updates that follow it are
recorded in an event list so that their relative order is part of the model.
-/

namespace Atoma

/-- A habit row as held in the hook state: identifier, title, optional
description, frequency string, creation timestamp, owner, and the derived
streak field which is absent until computed. -/
structure Habit where
  id : String
  title : String
  description : Option String
  frequency : String
  created_at : String
  user_id : String
  streak : Option Nat
deriving DecidableEq

/-- A completion log row: identifier, habit reference, owner, and the
completed date as a day number. -/
structure HabitLog where
  id : String
  habit_id : String
  user_id : String
  completed_date : Int
deriving DecidableEq

/-- The in-memory state owned by the hook: the habit list with derived
streaks, the cache of logs dated today, the cache of all logs, and the
loading flag. -/
structure HookState where
  habits : List Habit
  habitLogs : List HabitLog
  allLogs : List HabitLog
  loading : Bool
deriving DecidableEq

/-- Events observable across one handler call: the awaited remote call
resolving, and the synchronous batch of state updates that the handler
performs. -/
inductive Event where
  | remoteResolved
  | cacheUpdated
deriving DecidableEq

/-- Outcome of the awaited insert into the log table: the inserted row as
returned by the store, the unique-violation error with code 23505, or any
other error. -/
inductive InsertOutcome where
  | ok (newLog : HabitLog)
  | errDuplicate
  | errOther
deriving DecidableEq

/-- Outcome of an awaited remote delete. -/
inductive DeleteOutcome where
  | ok
  | err
deriving DecidableEq

/-- Outcome of the awaited insert into the habit table. -/
inductive HabitInsertOutcome where
  | ok (created : Habit)
  | err
deriving DecidableEq

/-- The messages the handlers surface to the caller, one constructor per
alert or logged error site in the source. -/
inductive Surface where
  | alreadyCompletedToday
  | failedToLogCompletion
  | errorRemovingLog
  | mustBeLoggedIn
  | failedToCreateHabit
  | failedToDeleteHabit
deriving DecidableEq

/-- The backward walk of the source streak loop: given the descending list of
completion dates for the habit, the counter increments while the date at
position i lies exactly streak days before today, and stops at the first
mismatch. -/
def streakLoop (checkDate : Int) : List Int → Nat → Nat
  | [], streak => streak
  | logDate :: rest, streak =>
    if checkDate - logDate = (streak : Int) then streakLoop checkDate rest (streak + 1)
    else streak

/-- The source streak computation: filter the logs of the habit, keep the
dates, sort ascending and reverse to newest first, return 0 on an empty
list, otherwise run the backward walk starting at a counter of 0. -/
def calculateStreak (habitId : String) (logs : List HabitLog) (today : Int) : Nat :=
  let habitDates :=
    (((logs.filter (fun log => log.habit_id == habitId)).map
      (fun log => log.completed_date)).insertionSort (· ≤ ·)).reverse
  if habitDates.isEmpty then 0
  else streakLoop today habitDates 0

/-- The source recomputation of derived views: map over the habit list and
replace each streak with the one calculated from the updated log cache. -/
def recalculateStreaks (today : Int) (updatedLogs : List HabitLog)
    (habits : List Habit) : List Habit :=
  habits.map (fun habit =>
    { habit with streak := some (calculateStreak habit.id updatedLogs today) })

/-- The descending list of the N consecutive day numbers ending at a given
day; used to state the unbroken-run properties. -/
def runEnding (today : Int) (N : Nat) : List Int :=
  (List.range N).map (fun (i : Nat) => today - (i : Int))

/-- Whether an event occurs strictly before a later occurrence of another
event in a trace. -/
def occursBefore (e1 e2 : Event) : List Event → Bool
  | [] => false
  | e :: rest => if e = e1 then rest.contains e2 else occursBefore e1 e2 rest

/-- The today-completed query of the source: a membership test on the cache
of logs dated today, matching on the habit id. -/
def isCompletedToday (s : HookState) (habitId : String) : Bool :=
  s.habitLogs.any (fun log => log.habit_id == habitId)

/-- The source mark-complete handler.  The body first awaits the remote
insert of the row for today; the outcome of that await is the third
argument.  On error 23505 it surfaces the already-completed message and on
any other error the generic failure, in both cases touching no state; on
success it appends the returned row to the today cache, prepends it to the
all-logs cache, and recalculates every streak from the updated cache, all
after the remote call has resolved. -/
def handleMarkComplete (habitId : String) (today : Int) (outcome : InsertOutcome)
    (s : HookState) : List Event × HookState × Option Surface :=
  match outcome with
  | .errDuplicate => ([.remoteResolved], s, some .alreadyCompletedToday)
  | .errOther => ([.remoteResolved], s, some .failedToLogCompletion)
  | .ok newLog =>
    let updatedAllLogs := newLog :: s.allLogs
    ([.remoteResolved, .cacheUpdated],
      { s with
        habitLogs := s.habitLogs ++ [newLog]
        allLogs := updatedAllLogs
        habits := recalculateStreaks today updatedAllLogs s.habits },
      none)

/-- The source unmark handler: awaits the remote delete of the row for the
habit, the user and today; on error it logs the failure and touches no
state; on success it drops from the today cache every log of the habit
(matching on the habit id alone), drops from the all-logs cache the logs of
the habit dated today, and recalculates the streaks. -/
def handleUnmarkComplete (habitId : String) (today : Int) (outcome : DeleteOutcome)
    (s : HookState) : List Event × HookState × Option Surface :=
  match outcome with
  | .err => ([.remoteResolved], s, some .errorRemovingLog)
  | .ok =>
    let updatedAllLogs := s.allLogs.filter
      (fun log => !(log.habit_id == habitId && log.completed_date == today))
    ([.remoteResolved, .cacheUpdated],
      { s with
        habitLogs := s.habitLogs.filter (fun log => log.habit_id != habitId)
        allLogs := updatedAllLogs
        habits := recalculateStreaks today updatedAllLogs s.habits },
      none)

/-- The fields submitted by the habit form. -/
structure HabitFormData where
  title : String
  description : String
  frequency : String
deriving DecidableEq

/-- The source create handler: it checks only that a user is resolved — no
field of the form data is inspected — and with no user surfaces the
logged-in requirement without any remote call; otherwise it awaits the
remote insert of the form fields, surfaces the generic failure on error, and
on success prepends the returned habit, with its streak set to 0, to the
habit list. -/
def handleCreate (user : Option String) (formData : HabitFormData)
    (outcome : HabitInsertOutcome) (s : HookState) :
    List Event × HookState × Option Surface :=
  match user with
  | none => ([], s, some .mustBeLoggedIn)
  | some _ =>
    match outcome with
    | .err => ([.remoteResolved], s, some .failedToCreateHabit)
    | .ok created =>
      let newHabit := { created with streak := some 0 }
      ([.remoteResolved, .cacheUpdated],
        { s with habits := newHabit :: s.habits }, none)

/-- The source delete handler of the hook that caches all logs: after the
confirmation prompt (its answer is the second argument; a declined prompt
returns without any call), it awaits the remote delete of the habit row,
surfaces the failure on error, and on success removes the habit from the
habit list and its logs from both log caches. -/
def handleDelete (id : String) (confirmed : Bool) (outcome : DeleteOutcome)
    (s : HookState) : List Event × HookState × Option Surface :=
  if !confirmed then ([], s, none)
  else
    match outcome with
    | .err => ([.remoteResolved], s, some .failedToDeleteHabit)
    | .ok =>
      ([.remoteResolved, .cacheUpdated],
        { s with
          habits := s.habits.filter (fun hb => hb.id != id)
          habitLogs := s.habitLogs.filter (fun log => log.habit_id != id)
          allLogs := s.allLogs.filter (fun log => log.habit_id != id) },
        none)

/-- The remote log table together with a counter for fresh row identifiers. -/
structure RemoteStore where
  logs : List HabitLog
  nextId : Nat
deriving DecidableEq

/-- Modelled from the spec: the Remote Store Adapter enforces at most one
CompletionRecord per (habit id, completion date) pair — the database schema
holding this uniqueness constraint is not part of the repository sources —
and a duplicate insert is rejected with the uniqueness-violation error
(code 23505); an insert of a fresh pair stores a row with a fresh
identifier and returns it. -/
def storeInsert (store : RemoteStore) (habitId userId : String) (date : Int) :
    InsertOutcome × RemoteStore :=
  if store.logs.any (fun l => l.habit_id == habitId && l.completed_date == date) then
    (.errDuplicate, store)
  else
    let newLog : HabitLog := ⟨toString store.nextId, habitId, userId, date⟩
    (.ok newLog, ⟨newLog :: store.logs, store.nextId + 1⟩)

/-- One whole mark-complete round trip: the store answers the insert and the
handler reacts to that outcome.  Returns the new hook state, the new store,
and the surfaced message. -/
def systemMark (habitId userId : String) (today : Int) (s : HookState)
    (store : RemoteStore) : HookState × RemoteStore × Option Surface :=
  let r := storeInsert store habitId userId today
  let h := handleMarkComplete habitId today r.1 s
  (h.2.1, r.2, h.2.2)

namespace Basic

/-- A habit row of the plain hook variant, which has no derived streak
field. -/
structure Habit where
  id : String
  title : String
  description : Option String
  frequency : String
  created_at : String
deriving DecidableEq

/-- A log row of the plain hook variant. -/
structure HabitLogs where
  id : String
  habit_id : String
  completed_date : Int
deriving DecidableEq

/-- The state of the plain hook variant: habits, the cache of logs dated
today, and the loading flag; there is no all-logs cache. -/
structure HookState where
  habits : List Habit
  habitLogs : List HabitLogs
  loading : Bool
deriving DecidableEq

/-- The today-completed query of the plain hook variant. -/
def isCompletedToday (s : HookState) (habitId : String) : Bool :=
  s.habitLogs.any (fun log => log.habit_id == habitId)

/-- The delete handler of the plain hook variant: after the confirmation
prompt it awaits the remote delete and on success filters the habit out of
the habit list — the today-log cache is left untouched. -/
def handleDelete (id : String) (confirmed : Bool) (outcome : DeleteOutcome)
    (s : HookState) : HookState × Option Surface :=
  if !confirmed then (s, none)
  else
    match outcome with
    | .err => (s, some .failedToDeleteHabit)
    | .ok => ({ s with habits := s.habits.filter (fun hb => hb.id != id) }, none)

end Basic

/-! ## Properties of the streak computation -/

theorem streakLoop_consecutive (today : Int) (N : Nat) :
    ∀ s : Nat,
      streakLoop today
        ((List.range N).map (fun (i : Nat) => today - (s : Int) - (i : Int))) s
        = s + N := by
  induction N with
  | zero => intro s; simp [streakLoop]
  | succ n ih =>
    intro s
    have hexp : (List.range (n + 1)).map (fun (i : Nat) => today - (s : Int) - (i : Int))
        = (today - (s : Int))
          :: (List.range n).map (fun (i : Nat) => today - ((s + 1 : Nat) : Int) - (i : Int)) := by
      rw [List.range_succ_eq_map, List.map_cons, List.map_map]
      refine congrArg₂ List.cons ?_ ?_
      · push_cast; ring
      · refine List.map_congr_left fun a _ => ?_
        simp only [Function.comp_apply]
        push_cast
        ring
    rw [hexp]
    rw [show streakLoop today ((today - (s : Int))
        :: (List.range n).map (fun (i : Nat) => today - ((s + 1 : Nat) : Int) - (i : Int))) s
      = if today - (today - (s : Int)) = (s : Int) then
          streakLoop today
            ((List.range n).map (fun (i : Nat) => today - ((s + 1 : Nat) : Int) - (i : Int)))
            (s + 1)
        else s from rfl]
    rw [if_pos (by ring), ih (s + 1)]
    omega

theorem streakLoop_runEnding (today : Int) (N : Nat) :
    streakLoop today (runEnding today N) 0 = N := by
  have h := streakLoop_consecutive today N 0
  have heq : (List.range N).map (fun (i : Nat) => today - ((0 : Nat) : Int) - (i : Int))
      = runEnding today N := by
    refine List.map_congr_left fun a _ => ?_
    push_cast
    ring
  rw [heq] at h
  simpa using h

theorem sorted_ge_runEnding (today : Int) (N : Nat) :
    List.Sorted (· ≥ ·) (runEnding today N) := by
  rw [runEnding, List.Sorted, List.pairwise_map]
  refine List.Pairwise.imp ?_ (List.pairwise_lt_range N)
  intro a b hab
  omega

theorem sorted_le_reverse_runEnding (today : Int) (N : Nat) :
    List.Sorted (· ≤ ·) (runEnding today N).reverse := by
  rw [List.Sorted, List.pairwise_reverse]
  exact sorted_ge_runEnding today N

/-- C4: for every log list whose dates for the habit form, as a multiset,
exactly an unbroken run of N consecutive days ending today, the streak
computation returns N; the case N = 0 is the habit with no completion
dates at all, for which it returns 0. -/
theorem calculateStreak_run_ending_today (habitId : String) (logs : List HabitLog)
    (today : Int) (N : Nat)
    (hperm : ((logs.filter (fun log => log.habit_id == habitId)).map
      (fun log => log.completed_date)).Perm (runEnding today N)) :
    calculateStreak habitId logs today = N := by
  have hsort : ((logs.filter (fun log => log.habit_id == habitId)).map
      (fun log => log.completed_date)).insertionSort (· ≤ ·)
      = (runEnding today N).reverse := by
    refine List.eq_of_perm_of_sorted ?_ (List.sorted_insertionSort _ _)
      (sorted_le_reverse_runEnding today N)
    exact (List.perm_insertionSort _ _).trans
      (hperm.trans (runEnding today N).reverse_perm.symm)
  simp only [calculateStreak, hsort, List.reverse_reverse]
  cases N with
  | zero => simp [runEnding]
  | succ n =>
    have hne : (runEnding today (n + 1)).isEmpty = false := by
      simp [runEnding, List.range_succ_eq_map]
    rw [hne]
    simpa using streakLoop_runEnding today (n + 1)

theorem calculateStreak_run_ending_today_witness :
    (((([⟨"1", "h", "u", 10⟩, ⟨"2", "h", "u", 9⟩] : List HabitLog).filter
        (fun log => log.habit_id == "h")).map
      (fun log => log.completed_date)).Perm (runEnding 10 2))
      ∧ calculateStreak "h" [⟨"1", "h", "u", 10⟩, ⟨"2", "h", "u", 9⟩] 10 = 2 :=
  ⟨by decide, calculateStreak_run_ending_today "h" _ 10 2 (by decide)⟩

/-- C1 counterexample: a habit completed yesterday and the day before but
not today has computed streak 0, not 2 — a missing completion for today
zeroes the walk at its first step. -/
theorem calculateStreak_missed_today_counterexample :
    calculateStreak "h" [⟨"1", "h", "u", 9⟩, ⟨"2", "h", "u", 8⟩] 10 ≠ 2
      ∧ calculateStreak "h" [⟨"1", "h", "u", 9⟩, ⟨"2", "h", "u", 8⟩] 10 = 0 := by
  decide

/-- C1 (amended): when today has no completion record for the habit, the
streak computation returns 0 — the backward walk requires the newest date
to be exactly today, so a missed today zeroes the displayed streak no
matter how long the run ending yesterday is. -/
theorem calculateStreak_zero_of_missed_today (habitId : String)
    (logs : List HabitLog) (today : Int)
    (h : ∀ log ∈ logs, log.habit_id = habitId → log.completed_date ≠ today) :
    calculateStreak habitId logs today = 0 := by
  simp only [calculateStreak]
  set L := ((logs.filter (fun log => log.habit_id == habitId)).map
    (fun log => log.completed_date)).insertionSort (· ≤ ·) with hL
  cases hrev : L.reverse with
  | nil => simp [hrev]
  | cons d rest =>
    have hd : d ∈ L := by
      have hm : d ∈ L.reverse := by rw [hrev]; exact List.mem_cons_self d rest
      rwa [List.mem_reverse] at hm
    have hdm : d ∈ (logs.filter (fun log => log.habit_id == habitId)).map
        (fun log => log.completed_date) := by
      rw [hL] at hd
      rwa [List.mem_insertionSort] at hd
    obtain ⟨log, hlogmem, hlogeq⟩ := List.mem_map.mp hdm
    obtain ⟨hmem, hpred⟩ := List.mem_filter.mp hlogmem
    have hid : log.habit_id = habitId := by simpa using hpred
    have hne : d ≠ today := hlogeq ▸ h log hmem hid
    have hcond : today - d ≠ ((0 : Nat) : Int) := by
      simpa [sub_ne_zero] using (Ne.symm hne)
    have hstep : (if (d :: rest).isEmpty = true then 0 else streakLoop today (d :: rest) 0)
        = streakLoop today (d :: rest) 0 := by simp
    rw [hstep]
    rw [show streakLoop today (d :: rest) 0
        = if today - d = ((0 : Nat) : Int) then streakLoop today rest (0 + 1) else 0 from rfl]
    rw [if_neg hcond]

theorem calculateStreak_zero_of_missed_today_witness :
    (∀ log ∈ ([⟨"1", "h", "u", 9⟩, ⟨"2", "h", "u", 8⟩] : List HabitLog),
        log.habit_id = "h" → log.completed_date ≠ 10)
      ∧ calculateStreak "h" [⟨"1", "h", "u", 9⟩, ⟨"2", "h", "u", 8⟩] 10 = 0 :=
  ⟨by decide, calculateStreak_zero_of_missed_today "h" _ 10 (by decide)⟩

/-- C10: the streak computation is invariant under permutation of the log
list — it sorts the filtered dates, so only the multiset of logs matters. -/
theorem calculateStreak_perm_invariant (habitId : String) (today : Int)
    {l₁ l₂ : List HabitLog} (hp : l₁.Perm l₂) :
    calculateStreak habitId l₁ today = calculateStreak habitId l₂ today := by
  have h1 : ((l₁.filter (fun log => log.habit_id == habitId)).map
      (fun log => log.completed_date)).Perm
      ((l₂.filter (fun log => log.habit_id == habitId)).map
        (fun log => log.completed_date)) :=
    (hp.filter _).map _
  have h2 : ((l₁.filter (fun log => log.habit_id == habitId)).map
      (fun log => log.completed_date)).insertionSort (· ≤ ·)
      = ((l₂.filter (fun log => log.habit_id == habitId)).map
        (fun log => log.completed_date)).insertionSort (· ≤ ·) := by
    refine List.eq_of_perm_of_sorted ?_ (List.sorted_insertionSort _ _)
      (List.sorted_insertionSort _ _)
    exact (List.perm_insertionSort _ _).trans
      (h1.trans (List.perm_insertionSort _ _).symm)
  simp only [calculateStreak, h2]

theorem calculateStreak_single_today (hid : String) (newLog : HabitLog)
    (L : List HabitLog) (today : Int) (hlh : newLog.habit_id = hid)
    (hld : newLog.completed_date = today) (h0 : ∀ log ∈ L, log.habit_id ≠ hid) :
    calculateStreak hid (newLog :: L) today = 1 := by
  have hfil : (newLog :: L).filter (fun log => log.habit_id == hid) = [newLog] := by
    rw [List.filter_cons]
    have hpa : (newLog.habit_id == hid) = true := by simpa using hlh
    have hLnil : L.filter (fun log => log.habit_id == hid) = [] := by
      rw [List.filter_eq_nil_iff]
      intro a ha
      simpa using h0 a ha
    simp [hpa, hLnil]
  simp only [calculateStreak, hfil, List.map_cons, List.map_nil, hld]
  simp [List.insertionSort, List.orderedInsert, streakLoop]

theorem calculateStreak_perm_invariant_witness :
    (([⟨"1", "h", "u", 10⟩, ⟨"2", "h", "u", 9⟩] : List HabitLog).Perm
        [⟨"2", "h", "u", 9⟩, ⟨"1", "h", "u", 10⟩])
      ∧ calculateStreak "h" [⟨"1", "h", "u", 10⟩, ⟨"2", "h", "u", 9⟩] 10
        = calculateStreak "h" [⟨"2", "h", "u", 9⟩, ⟨"1", "h", "u", 10⟩] 10 :=
  ⟨by decide, calculateStreak_perm_invariant "h" 10 (by decide)⟩

/-! ## Properties of the handlers -/

theorem all_filter_self {α : Type} (p : α → Bool) (l : List α) :
    (l.filter p).all p = true := by
  rw [List.all_eq_true]
  intro x hx
  exact (List.mem_filter.mp hx).2

theorem any_beq_filter_bne {α : Type} (f : α → String) (id : String) (l : List α) :
    (l.filter (fun x => f x != id)).any (fun x => f x == id) = false := by
  rw [List.any_eq_false]
  intro x hx
  have h2 := (List.mem_filter.mp hx).2
  simpa using h2

theorem find?_recalculateStreaks (today : Int) (L : List HabitLog)
    (habits : List Habit) (hid : String) :
    (recalculateStreaks today L habits).find? (fun hb => hb.id == hid)
      = (habits.find? (fun hb => hb.id == hid)).map
          (fun hb => { hb with streak := some (calculateStreak hb.id L today) }) := by
  induction habits with
  | nil => rfl
  | cons a t ih =>
    have hcons : recalculateStreaks today L (a :: t)
        = { a with streak := some (calculateStreak a.id L today) }
          :: recalculateStreaks today L t := rfl
    rw [hcons]
    by_cases ha : (a.id == hid) = true
    · simp [List.find?, ha]
    · simp [List.find?, ha]
      exact ih

/-- C5: when the awaited remote insert fails with the non-duplicate error,
the handler returns with the hook state unchanged — every cached habit, log
and derived view equals its value immediately before the call — and the
generic failure message is surfaced to the caller. -/
theorem handleMarkComplete_other_failure (habitId : String) (today : Int)
    (s : HookState) :
    handleMarkComplete habitId today .errOther s
      = ([Event.remoteResolved], s, some Surface.failedToLogCompletion) := rfl

/-- C2 counterexample: in a mark-complete call on a habit with zero history
whose remote insert succeeds, the remote insert resolves strictly before
the cache is updated, so the cache insert and recompute do not happen
before the remote write resolves. -/
theorem handleMarkComplete_not_before_remote :
    occursBefore Event.cacheUpdated Event.remoteResolved
        (handleMarkComplete "h" 10 (.ok ⟨"1", "h", "u", 10⟩)
          ⟨[⟨"h", "t", none, "daily", "c", "u", some 0⟩], [], [], false⟩).1 = false
      ∧ occursBefore Event.remoteResolved Event.cacheUpdated
        (handleMarkComplete "h" 10 (.ok ⟨"1", "h", "u", 10⟩)
          ⟨[⟨"h", "t", none, "daily", "c", "u", some 0⟩], [], [], false⟩).1 = true := by
  decide

/-- C2 (amended): the mark-complete handler awaits the remote insert and
only after it resolves successfully inserts the returned record into both
log caches and recomputes the derived views, without a refetch; for a habit
with zero history this makes the streak 1 and the today-completed flag true
within that same call, after — not before — remote confirmation. -/
theorem handleMarkComplete_success_zero_history (habitId : String) (today : Int)
    (newLog : HabitLog) (s : HookState)
    (hlh : newLog.habit_id = habitId) (hld : newLog.completed_date = today)
    (hzero : ∀ log ∈ s.allLogs, log.habit_id ≠ habitId) :
    isCompletedToday (handleMarkComplete habitId today (.ok newLog) s).2.1 habitId = true
      ∧ ((handleMarkComplete habitId today (.ok newLog) s).2.1.habits.find?
          (fun hb => hb.id == habitId)).map Habit.streak
        = (s.habits.find? (fun hb => hb.id == habitId)).map (fun _ => some 1)
      ∧ (handleMarkComplete habitId today (.ok newLog) s).1
        = [Event.remoteResolved, Event.cacheUpdated] := by
  refine ⟨?_, ?_, rfl⟩
  · simp [handleMarkComplete, isCompletedToday, List.any_append, hlh]
  · have hred : (handleMarkComplete habitId today (.ok newLog) s).2.1.habits
        = recalculateStreaks today (newLog :: s.allLogs) s.habits := rfl
    rw [hred, find?_recalculateStreaks, Option.map_map]
    cases hfind : s.habits.find? (fun hb => hb.id == habitId) with
    | none => rfl
    | some hb =>
      have hbid : hb.id = habitId := by
        simpa using List.find?_some hfind
      have hcalc : calculateStreak hb.id (newLog :: s.allLogs) today = 1 := by
        rw [hbid]
        exact calculateStreak_single_today habitId newLog s.allLogs today hlh hld hzero
      simp [Function.comp, hcalc]

theorem handleMarkComplete_success_zero_history_witness :
    (∀ log ∈ ([] : List HabitLog), log.habit_id ≠ "h")
      ∧ (isCompletedToday (handleMarkComplete "h" 10 (.ok ⟨"1", "h", "u", 10⟩)
            ⟨[⟨"h", "t", none, "daily", "c", "u", none⟩], [], [], false⟩).2.1 "h" = true
        ∧ ((handleMarkComplete "h" 10 (.ok ⟨"1", "h", "u", 10⟩)
              ⟨[⟨"h", "t", none, "daily", "c", "u", none⟩], [], [], false⟩).2.1.habits.find?
            (fun hb => hb.id == "h")).map Habit.streak
          = (([⟨"h", "t", none, "daily", "c", "u", none⟩] : List Habit).find?
              (fun hb => hb.id == "h")).map (fun _ => some 1)
        ∧ (handleMarkComplete "h" 10 (.ok ⟨"1", "h", "u", 10⟩)
            ⟨[⟨"h", "t", none, "daily", "c", "u", none⟩], [], [], false⟩).1
          = [Event.remoteResolved, Event.cacheUpdated]) :=
  ⟨by decide,
    handleMarkComplete_success_zero_history "h" 10 ⟨"1", "h", "u", 10⟩
      ⟨[⟨"h", "t", none, "daily", "c", "u", none⟩], [], [], false⟩ rfl rfl (by decide)⟩

/-- C9: a successful unmark purges from the today-log cache every log whose
habit id matches, regardless of the stored date of the log, and the
today-completed query for that habit then returns false. -/
theorem handleUnmarkComplete_purges_by_id (habitId : String) (today : Int)
    (s : HookState) :
    (handleUnmarkComplete habitId today .ok s).2.1.habitLogs
        = s.habitLogs.filter (fun log => log.habit_id != habitId)
      ∧ isCompletedToday (handleUnmarkComplete habitId today .ok s).2.1 habitId
        = false := by
  refine ⟨rfl, ?_⟩
  exact any_beq_filter_bne (fun log => log.habit_id) habitId s.habitLogs

/-- C3: starting from a remote store holding no completion row for the
habit today, two successive mark-complete round trips leave exactly one row
for that (habit, day) pair in the store, the second call surfaces the
already-completed message, and the second call leaves the cache exactly as
the first call left it. -/
theorem systemMark_twice_one_record (habitId userId : String) (today : Int)
    (s : HookState) (store : RemoteStore)
    (hfresh : ∀ l ∈ store.logs, ¬(l.habit_id = habitId ∧ l.completed_date = today)) :
    ((systemMark habitId userId today
        (systemMark habitId userId today s store).1
        (systemMark habitId userId today s store).2.1).2.1.logs.countP
        (fun l => l.habit_id == habitId && l.completed_date == today)) = 1
      ∧ (systemMark habitId userId today
          (systemMark habitId userId today s store).1
          (systemMark habitId userId today s store).2.1).2.2
        = some Surface.alreadyCompletedToday
      ∧ (systemMark habitId userId today
          (systemMark habitId userId today s store).1
          (systemMark habitId userId today s store).2.1).1
        = (systemMark habitId userId today s store).1 := by
  have hany : store.logs.any
      (fun l => l.habit_id == habitId && l.completed_date == today) = false := by
    rw [List.any_eq_false]
    intro x hx
    have hnx := hfresh x hx
    simpa using hnx
  have h1 : storeInsert store habitId userId today
      = (.ok ⟨toString store.nextId, habitId, userId, today⟩,
         ⟨⟨toString store.nextId, habitId, userId, today⟩ :: store.logs,
          store.nextId + 1⟩) := by
    rw [storeInsert, if_neg (by simp [hany])]
  have hsys1 : systemMark habitId userId today s store
      = ((handleMarkComplete habitId today
            (.ok ⟨toString store.nextId, habitId, userId, today⟩) s).2.1,
         ⟨⟨toString store.nextId, habitId, userId, today⟩ :: store.logs,
          store.nextId + 1⟩,
         none) := by
    simp only [systemMark, h1, handleMarkComplete]
  have h2 : storeInsert
      ⟨⟨toString store.nextId, habitId, userId, today⟩ :: store.logs,
       store.nextId + 1⟩ habitId userId today
      = (.errDuplicate,
         ⟨⟨toString store.nextId, habitId, userId, today⟩ :: store.logs,
          store.nextId + 1⟩) := by
    rw [storeInsert, if_pos (by simp)]
  rw [hsys1]
  simp only [systemMark, h2]
  refine ⟨?_, rfl, rfl⟩
  rw [List.countP_cons_of_pos _ _ (by simp)]
  have hzero : store.logs.countP
      (fun l => l.habit_id == habitId && l.completed_date == today) = 0 := by
    rw [List.countP_eq_zero]
    intro x hx
    have hnx := hfresh x hx
    simpa using hnx
  rw [hzero]

theorem systemMark_twice_one_record_witness :
    (∀ l ∈ ([] : List HabitLog), ¬(l.habit_id = "h" ∧ l.completed_date = 10))
      ∧ (((systemMark "h" "u" 10
            (systemMark "h" "u" 10 ⟨[], [], [], false⟩ ⟨[], 0⟩).1
            (systemMark "h" "u" 10 ⟨[], [], [], false⟩ ⟨[], 0⟩).2.1).2.1.logs.countP
            (fun l => l.habit_id == "h" && l.completed_date == 10)) = 1
        ∧ (systemMark "h" "u" 10
            (systemMark "h" "u" 10 ⟨[], [], [], false⟩ ⟨[], 0⟩).1
            (systemMark "h" "u" 10 ⟨[], [], [], false⟩ ⟨[], 0⟩).2.1).2.2
          = some Surface.alreadyCompletedToday
        ∧ (systemMark "h" "u" 10
            (systemMark "h" "u" 10 ⟨[], [], [], false⟩ ⟨[], 0⟩).1
            (systemMark "h" "u" 10 ⟨[], [], [], false⟩ ⟨[], 0⟩).2.1).1
          = (systemMark "h" "u" 10 ⟨[], [], [], false⟩ ⟨[], 0⟩).1) :=
  ⟨by decide, systemMark_twice_one_record "h" "u" 10 ⟨[], [], [], false⟩ ⟨[], 0⟩ (by decide)⟩

/-- C6 counterexample: from a starting cache state whose today-log cache
already holds a log of the habit, a successful mark followed by a
successful unmark on the same day does not restore the pre-mark derived
view — the today-completed flag was true before the mark and is false
after the unmark, because the unmark filter drops every log of the habit. -/
theorem mark_unmark_not_roundtrip :
    isCompletedToday
        ⟨[⟨"h", "t", none, "daily", "c", "u", some 0⟩],
         [⟨"0", "h", "u", 10⟩], [], false⟩ "h" = true
      ∧ isCompletedToday
          (handleUnmarkComplete "h" 10 .ok
            (handleMarkComplete "h" 10 (.ok ⟨"1", "h", "u", 10⟩)
              ⟨[⟨"h", "t", none, "daily", "c", "u", some 0⟩],
               [⟨"0", "h", "u", 10⟩], [], false⟩).2.1).2.1 "h" = false := by
  decide

/-- C6 (amended): mark-complete followed by unmark-complete on the same
day, both remote calls succeeding, restores the pre-mark derived view of
the habit — same today-completed flag and same cached streak — provided the
starting cache is consistent with a store in which the mark can succeed:
its today-log cache holds no log of the habit, its all-log cache holds no
record of the habit dated today, and the cached streak of the habit equals
the one calculated from the all-log cache. -/
theorem mark_unmark_roundtrip (habitId : String) (today : Int)
    (newLog : HabitLog) (s : HookState)
    (hlh : newLog.habit_id = habitId) (hld : newLog.completed_date = today)
    (hToday : ∀ log ∈ s.habitLogs, log.habit_id ≠ habitId)
    (hAll : ∀ log ∈ s.allLogs, ¬(log.habit_id = habitId ∧ log.completed_date = today))
    (hStreak : ∀ hb ∈ s.habits, hb.id = habitId
        → hb.streak = some (calculateStreak habitId s.allLogs today)) :
    isCompletedToday (handleUnmarkComplete habitId today .ok
        (handleMarkComplete habitId today (.ok newLog) s).2.1).2.1 habitId
      = isCompletedToday s habitId
      ∧ ((handleUnmarkComplete habitId today .ok
          (handleMarkComplete habitId today (.ok newLog) s).2.1).2.1.habits.find?
            (fun hb => hb.id == habitId)).map Habit.streak
        = (s.habits.find? (fun hb => hb.id == habitId)).map Habit.streak := by
  have hhl : (s.habitLogs ++ [newLog]).filter (fun log => log.habit_id != habitId)
      = s.habitLogs := by
    rw [List.filter_append]
    have hone : [newLog].filter (fun log => log.habit_id != habitId) = [] := by
      simp [List.filter, hlh]
    have hself : s.habitLogs.filter (fun log => log.habit_id != habitId)
        = s.habitLogs := by
      rw [List.filter_eq_self]
      intro a ha
      simpa using hToday a ha
    rw [hone, hself, List.append_nil]
  have hal : (newLog :: s.allLogs).filter
      (fun log => !(log.habit_id == habitId && log.completed_date == today))
      = s.allLogs := by
    have hpa : (!(newLog.habit_id == habitId && newLog.completed_date == today))
        = false := by
      simp [hlh, hld]
    have hself : s.allLogs.filter
        (fun log => !(log.habit_id == habitId && log.completed_date == today))
        = s.allLogs := by
      rw [List.filter_eq_self]
      intro a ha
      rcases not_and_or.mp (hAll a ha) with hna | hna
      · simp [hna]
      · simp [hna]
    have hdrop : (newLog :: s.allLogs).filter
        (fun log => !(log.habit_id == habitId && log.completed_date == today))
        = s.allLogs.filter
          (fun log => !(log.habit_id == habitId && log.completed_date == today)) := by
      rw [List.filter_cons, hpa]
      simp
    rw [hdrop, hself]
  have hlogs2 : (handleUnmarkComplete habitId today .ok
      (handleMarkComplete habitId today (.ok newLog) s).2.1).2.1.habitLogs
      = (s.habitLogs ++ [newLog]).filter (fun log => log.habit_id != habitId) := rfl
  have hhabits2 : (handleUnmarkComplete habitId today .ok
      (handleMarkComplete habitId today (.ok newLog) s).2.1).2.1.habits
      = recalculateStreaks today
          ((newLog :: s.allLogs).filter
            (fun log => !(log.habit_id == habitId && log.completed_date == today)))
          (recalculateStreaks today (newLog :: s.allLogs) s.habits) := rfl
  constructor
  · simp only [isCompletedToday]
    rw [hlogs2, hhl]
  · rw [hhabits2, hal, find?_recalculateStreaks, find?_recalculateStreaks,
      Option.map_map, Option.map_map]
    cases hfind : s.habits.find? (fun hb => hb.id == habitId) with
    | none => rfl
    | some hb =>
      have hbid : hb.id = habitId := by
        simpa using List.find?_some hfind
      have hbmem : hb ∈ s.habits := List.mem_of_find?_eq_some hfind
      have hbstreak : hb.streak = some (calculateStreak habitId s.allLogs today) :=
        hStreak hb hbmem hbid
      simp [Function.comp, hbid, hbstreak]

theorem mark_unmark_roundtrip_witness :
    (∀ hb ∈ ([⟨"h", "t", none, "daily", "c", "u", some 0⟩] : List Habit),
        hb.id = "h" → hb.streak = some (calculateStreak "h" [] 10))
      ∧ (isCompletedToday (handleUnmarkComplete "h" 10 .ok
            (handleMarkComplete "h" 10 (.ok ⟨"1", "h", "u", 10⟩)
              ⟨[⟨"h", "t", none, "daily", "c", "u", some 0⟩],
               [], [], false⟩).2.1).2.1 "h"
          = isCompletedToday
              ⟨[⟨"h", "t", none, "daily", "c", "u", some 0⟩], [], [], false⟩ "h"
        ∧ ((handleUnmarkComplete "h" 10 .ok
            (handleMarkComplete "h" 10 (.ok ⟨"1", "h", "u", 10⟩)
              ⟨[⟨"h", "t", none, "daily", "c", "u", some 0⟩],
               [], [], false⟩).2.1).2.1.habits.find?
              (fun hb => hb.id == "h")).map Habit.streak
          = (([⟨"h", "t", none, "daily", "c", "u", some 0⟩] : List Habit).find?
              (fun hb => hb.id == "h")).map Habit.streak) :=
  ⟨by decide,
    mark_unmark_roundtrip "h" 10 ⟨"1", "h", "u", 10⟩
      ⟨[⟨"h", "t", none, "daily", "c", "u", some 0⟩], [], [], false⟩
      rfl rfl (by decide) (by decide) (by decide)⟩

/-- C7 counterexample: the create handler does no validation — called with
an empty title by a logged-in user, it still issues the remote insert, it
mutates the cache on success, and it surfaces no validation failure. -/
theorem handleCreate_empty_title_inserts :
    ((handleCreate (some "u") ⟨"", "", "daily"⟩
          (.ok ⟨"h1", "", none, "daily", "c", "u", none⟩)
          ⟨[], [], [], false⟩).1.contains Event.remoteResolved = true)
      ∧ (handleCreate (some "u") ⟨"", "", "daily"⟩
          (.ok ⟨"h1", "", none, "daily", "c", "u", none⟩)
          ⟨[], [], [], false⟩).2.1.habits ≠ []
      ∧ (handleCreate (some "u") ⟨"", "", "daily"⟩
          (.ok ⟨"h1", "", none, "daily", "c", "u", none⟩)
          ⟨[], [], [], false⟩).2.2 = none := by
  decide

/-- C7 (amended): the create handler validates neither the title nor the
frequency; the only check made before the remote insert is that a user is
resolved.  With no user the failure is surfaced immediately with no remote
call and no cache mutation; with a user the remote insert is always issued,
whatever the submitted fields. -/
theorem handleCreate_checks_only_user (u : String) (formData : HabitFormData)
    (outcome : HabitInsertOutcome) (s : HookState) :
    handleCreate none formData outcome s = ([], s, some Surface.mustBeLoggedIn)
      ∧ (handleCreate (some u) formData outcome s).1.contains
          Event.remoteResolved = true := by
  refine ⟨rfl, ?_⟩
  cases outcome <;> rfl

/-- C8 counterexample: in the plain hook variant, a confirmed delete that
succeeds remotely removes the habit from the habit list but leaves the
today-log cache untouched, so the today-completed query for the deleted
habit still returns true. -/
theorem basic_handleDelete_leaves_today_logs :
    (Basic.handleDelete "h" true .ok
        ⟨[⟨"h", "t", none, "daily", "c"⟩], [⟨"1", "h", 10⟩], false⟩).1.habits = []
      ∧ Basic.isCompletedToday
          (Basic.handleDelete "h" true .ok
            ⟨[⟨"h", "t", none, "daily", "c"⟩], [⟨"1", "h", 10⟩], false⟩).1 "h"
        = true := by
  decide

/-- C8 (amended): in the hook that caches all logs, a confirmed delete
whose remote call succeeds removes the habit together with its derived
view from the habit list and removes every cached completion record of it
from both log caches, and the today-completed query for the deleted id
then returns false (the query is a total membership test, so it cannot
throw); the plain hook variant, however, leaves the today-log cache
untouched, so there the query may still return true until the next fetch. -/
theorem handleDelete_purges (id : String) (s : HookState) :
    ((handleDelete id true .ok s).2.1.habits.all (fun hb => hb.id != id)) = true
      ∧ ((handleDelete id true .ok s).2.1.habitLogs.all
          (fun log => log.habit_id != id)) = true
      ∧ ((handleDelete id true .ok s).2.1.allLogs.all
          (fun log => log.habit_id != id)) = true
      ∧ isCompletedToday (handleDelete id true .ok s).2.1 id = false := by
  refine ⟨?_, ?_, ?_, ?_⟩
  · exact all_filter_self _ s.habits
  · exact all_filter_self _ s.habitLogs
  · exact all_filter_self _ s.allLogs
  · exact any_beq_filter_bne (fun log => log.habit_id) id s.habitLogs

end Atoma
